import Mathlib

/-!
Shallow embedding of the PDF page-partitioning utilities of
`klbase_app/file_process/pdf_process.py` and of the batch-deletion and
conversion utilities of `klbase_app/file_process/file_operate.py` /
`pdf_process.py`, together with theorems settling the spec claims.

A document is modelled as the ordered list of its (opaque) pages; all
integer arithmetic of the Python source is carried out on `Int`, with
Python's floor division `//` as `Int.fdiv` and Python's `%` as `Int.fmod`
(both follow the sign of the divisor, exactly as in Python).  A Python
call that raises an uncaught exception is modelled as `none` / `.error`.
-/

/-- Python `range(a, b)` (step 1): the integers `a, a+1, ..., b-1`,
empty when `b ≤ a`. -/
def pyRange (a b : Int) : List Int :=
  (List.range (b - a).toNat).map (fun k : Nat => a + (k : Int))

/-- `pdf.pages[one_range]` (pdf_process.py line 84): the pages of `doc` at the
indices of the range.  Every range produced by `pageRangeList` either lies
entirely inside `[0, doc.length)` or is empty, so the out-of-bounds guard
(`none` for a negative or too-large index) never fires on reachable inputs;
Python's negative-index wraparound is never exercised for the same reason. -/
def pagesAt (doc : List α) (r : Int × Int) : List α :=
  (pyRange r.1 r.2).filterMap (fun i => if 0 ≤ i then doc[i.toNat]? else none)

/-- The `range_list` built by `pdf_split_by_page` (pdf_process.py lines 62-81)
from the page count `N`, the divisor `pages` and the mode string.  A range
`range(a, b)` is represented by the pair `(a, b)`.  For a mode other than
`"begin"`/`"end"` the Python loop body appends nothing, leaving `[]`. -/
def pageRangeList (N : Nat) (pages : Int) (mode : String) : List (Int × Int) :=
  if mode = "begin" then
    (if Int.fmod N pages ≠ 0 then [((0 : Int), Int.fmod N pages)] else []) ++
    (List.range (Int.fdiv N pages).toNat).map
      (fun i : Nat =>
        (Int.fmod N pages + pages * (i : Int), Int.fmod N pages + pages * ((i : Int) + 1)))
  else if mode = "end" then
    (List.range (Int.fdiv N pages).toNat).map
      (fun i : Nat => (pages * (i : Int), pages * ((i : Int) + 1))) ++
    (if Int.fmod N pages ≠ 0 then
      [(pages * Int.fdiv N pages, pages * Int.fdiv N pages + Int.fmod N pages)] else [])
  else []

/-- `pdf_split_by_page` (pdf_process.py lines 48-94).  `pages = 0` raises
`ZeroDivisionError` at `pdf_page_len // pages` (line 64), modelled as `none`;
otherwise each computed range is materialised as one output document. -/
def pdf_split_by_page (doc : List α) (pages : Int) (mode : String) :
    Option (List (List α)) :=
  if pages = 0 then none
  else some ((pageRangeList doc.length pages mode).map (pagesAt doc))

/-- Python list slice `doc[a:b]` for `0 ≤ a ≤ b` — the only case reached by
`pdf_split_by_part` (line 149), whose slice bounds are partial sums of
non-negative page counts. -/
def pySlice (doc : List α) (a b : Int) : List α :=
  (doc.drop a.toNat).take (b - a).toNat

/-- The final loop of `pdf_split_by_part` (pdf_process.py lines 142-154):
walk a running `start_idx` forward, emitting `doc[start_idx : start_idx + n]`
for each entry `n` of `page_num_per_pdf`. -/
def walkSlices (doc : List α) (start_idx : Int) : List Int → List (List α)
  | [] => []
  | page_num :: rest =>
    pySlice doc start_idx (start_idx + page_num) ::
      walkSlices doc (start_idx + page_num) rest

/-- The `page_num_per_pdf` list of `pdf_split_by_part` (pdf_process.py lines
133-140): start from `[avg_page_num] * parts` and add the boolean
`idx >= pdf_page_len - remaining_page_num` (mode `"front"`, line 137) resp.
`idx < remaining_page_num` (any other mode, line 140) to entry `idx`. -/
def partPageNums (N : Nat) (parts : Int) (mode : String) : List Int :=
  if mode = "front" then
    (List.range parts.toNat).map
      (fun idx : Nat => Int.fdiv N parts +
        (if (N : Int) - Int.fmod N parts ≤ (idx : Int) then 1 else 0))
  else
    (List.range parts.toNat).map
      (fun idx : Nat => Int.fdiv N parts + (if (idx : Int) < Int.fmod N parts then 1 else 0))

/-- `pdf_split_by_part` (pdf_process.py lines 99-156).  `parts = 0` raises
`ZeroDivisionError` at `pdf_page_len // parts` (line 119), modelled as `none`.
When `pdf_page_len // parts == 0` the degenerate branch (lines 119-127) emits
one single-page document per page; otherwise the page counts of
`partPageNums` are materialised by `walkSlices`. -/
def pdf_split_by_part (doc : List α) (parts : Int) (mode : String) :
    Option (List (List α)) :=
  if parts = 0 then none
  else if Int.fdiv doc.length parts = 0 then some (doc.map (fun page => [page]))
  else some (walkSlices doc 0 (partPageNums doc.length parts mode))

/-- `pdf_merge` (pdf_process.py lines 28-45): append the pages of every input
document, in input order, to an initially empty writer. -/
def pdf_merge (source_list : List (List α)) : List α :=
  source_list.foldl (fun result one_pdf => result ++ one_pdf) []

/-- The `drop_pages_list` set built by `pdf_drop_pages` (pdf_process.py lines
178-182): all 1-based indices of `range(page_begin, page_end + 1)` over every
requested range.  Python collects them into a `set`; since the set is only
ever queried for membership, the duplicate-preserving list is an equivalent
model. -/
def dropPagesSet (drop_pages : List (Int × Int)) : List Int :=
  (drop_pages.map (fun r => pyRange r.1 (r.2 + 1))).flatten

/-- `pdf_drop_pages` (pdf_process.py lines 159-192): keep exactly the pages
whose 1-based position (`enumerate(pdf.pages, start=1)`) is not in
`drop_pages_list`, in original order. -/
def pdf_drop_pages (doc : List α) (drop_pages : List (Int × Int)) : List α :=
  ((List.enumFrom 1 doc).filter
    (fun p => !decide ((p.1 : Int) ∈ dropPagesSet drop_pages))).map Prod.snd

/-- Restatement of spec §4.3 in its own words, for comparison with
`pdf_drop_pages`: walk the document in original order and emit a page iff its
1-based position is covered by no requested closed range `[begin, end]`. -/
def dropPagesSpec (doc : List α) (drop_pages : List (Int × Int)) : List α :=
  ((List.enumFrom 1 doc).filter
    (fun p => !decide (∃ r ∈ drop_pages, r.1 ≤ (p.1 : Int) ∧ (p.1 : Int) ≤ r.2))).map Prod.snd

/-- Intersection of a requested 1-based closed range with `[1, N]`; `none`
when the intersection is empty (in particular for an inverted range). -/
def clampRange (N : Nat) (r : Int × Int) : Option (Int × Int) :=
  if max r.1 1 ≤ min r.2 N then some (max r.1 1, min r.2 N) else none

/-- Proof-side normal form of a contiguous extraction: the pages at 0-based
indices `[q.1, q.2)` of `doc`. -/
def natSlice (doc : List α) (q : Nat × Nat) : List α :=
  (doc.drop q.1).take (q.2 - q.1)

/-- Proof-side normal form of `pageRangeList` for a positive divisor `p`,
with all endpoints in `Nat`. -/
def natPageRanges (N p : Nat) (mode : String) : List (Nat × Nat) :=
  if mode = "begin" then
    (if N % p ≠ 0 then [(0, N % p)] else []) ++
    (List.range (N / p)).map (fun i => (N % p + p * i, N % p + p * (i + 1)))
  else if mode = "end" then
    (List.range (N / p)).map (fun i => (p * i, p * (i + 1))) ++
    (if N % p ≠ 0 then [(p * (N / p), p * (N / p) + N % p)] else [])
  else []

/-- `rl` is a gap-free chain of half-open index ranges from `s` to `e`:
`rl = [(s, t₁), (t₁, t₂), ..., (t_{k-1}, e)]` with non-decreasing bounds. -/
inductive ChainedN : Nat → Nat → List (Nat × Nat) → Prop
  | nil (s : Nat) : ChainedN s s []
  | cons {s t e : Nat} {rest : List (Nat × Nat)} (hst : s ≤ t)
      (hrest : ChainedN t e rest) : ChainedN s e ((s, t) :: rest)

/-- Outcome of attempting to delete one existing path in `rm_files`
(file_operate.py lines 119-126). -/
inductive DeleteOutcome
  | ok
  | permissionError
  | osError
  | otherError
deriving DecidableEq

/-- Abstraction of one input path of `rm_files` together with the filesystem
facts the function branches on: whether `_is_safe_to_delete` accepts it
(file_operate.py lines 143-170, modelled as an oracle since it only inspects
the path string), whether the path exists, and how deleting it turns out. -/
structure PathSpec where
  safeToDelete : Bool
  existsOnDisk : Bool
  outcome : DeleteOutcome
deriving DecidableEq

/-- The uncaught Python exception escaping `rm_files`: `file_operate.py` never
imports `sys`, so every `print(..., file=sys.stderr)` (lines 111, 131, 134,
137) raises `NameError`. -/
inductive PyFailure
  | nameError
deriving DecidableEq

/-- The `for source in source_paths` loop of `rm_files` (file_operate.py lines
104-138) with accumulator `success`.  A blocked path reaches line 111, whose
`sys.stderr` raises `NameError` inside the `try`; the `except Exception`
handler (line 137) hits `sys.stderr` again and the `NameError` escapes.  A
`PermissionError`/`OSError`/other failure is caught at lines 130-138, whose
handlers also dereference `sys.stderr`, so the `NameError` escapes there too.
A missing path is skipped (line 116); a successful deletion prints without
`sys` (line 128) and continues. -/
def rmFilesLoop : Bool → List PathSpec → Except PyFailure Bool
  | success, [] => .ok success
  | success, p :: rest =>
    if !p.safeToDelete then .error .nameError
    else if !p.existsOnDisk then rmFilesLoop success rest
    else match p.outcome with
      | .ok => rmFilesLoop success rest
      | _ => .error .nameError

/-- `rm_files` (file_operate.py lines 89-140). -/
def rm_files (source_paths : List PathSpec) : Except PyFailure Bool :=
  rmFilesLoop true source_paths

/-- Observable effect of one `convert_to_pdf` call: whether an exception
escaped, whether the per-call temporary directory `out_dir/uuid1().hex` was
created, and whether it was removed again before the call finished. -/
structure ConvResult where
  raised : Bool
  tempDirCreated : Bool
  tempDirRemoved : Bool
deriving DecidableEq

/-- The suffix allow-list of `convert_to_pdf` (pdf_process.py line 207). -/
def allowedSuffixes : List String :=
  [".pdf", ".docx", ".doc", ".xls", ".xlsx", ".png", ".jpg", ".ppt", ".pptx"]

/-- Control flow of `convert_to_pdf` (pdf_process.py lines 195-256), tracking
the temporary directory.  `readOk` abstracts the file reads (source for the
`.pdf` branch, produced output otherwise), `convertOk` the external
`soffice` run (lines 238-240).  A bad suffix raises `TypeError` before the
`try` block, so no directory is created.  A `.pdf` source returns at line 222
from inside the `try`, skipping the `shutil.rmtree(out_dir)` of line 251; any
exception inside the `try` runs the handler of lines 252-254, which removes
the directory and re-raises. -/
def convert_to_pdf (suffix : String) (readOk convertOk : Bool) : ConvResult :=
  if !allowedSuffixes.contains suffix then
    { raised := true, tempDirCreated := false, tempDirRemoved := false }
  else if suffix = ".pdf" then
    if readOk then { raised := false, tempDirCreated := true, tempDirRemoved := false }
    else { raised := true, tempDirCreated := true, tempDirRemoved := true }
  else if convertOk && readOk then
    { raised := false, tempDirCreated := true, tempDirRemoved := true }
  else { raised := true, tempDirCreated := true, tempDirRemoved := true }

/-- Control flow of `convert_to_pdf_async` (pdf_process.py lines 259-325) —
identical to `convert_to_pdf` except that a timeout (lines 303-308) raises
`TimeoutError` inside the `try` after terminating the process, so it takes
the exception path of lines 323-325.  The `.pdf` early return at line 287
again skips the `shutil.rmtree(out_dir)` of line 320. -/
def convert_to_pdf_async (suffix : String) (readOk timedOut convertOk : Bool) : ConvResult :=
  if !allowedSuffixes.contains suffix then
    { raised := true, tempDirCreated := false, tempDirRemoved := false }
  else if suffix = ".pdf" then
    if readOk then { raised := false, tempDirCreated := true, tempDirRemoved := false }
    else { raised := true, tempDirCreated := true, tempDirRemoved := true }
  else if timedOut then
    { raised := true, tempDirCreated := true, tempDirRemoved := true }
  else if convertOk && readOk then
    { raised := false, tempDirCreated := true, tempDirRemoved := true }
  else { raised := true, tempDirCreated := true, tempDirRemoved := true }

/-! ### Arithmetic helper lemmas: Python `//` and `%` as `Int.fdiv` / `Int.fmod` -/

theorem fdiv_natCast (m n : Nat) : Int.fdiv (m : Int) (n : Int) = ((m / n : Nat) : Int) :=
  (Int.ofNat_fdiv m n).symm

theorem fmod_natCast (m n : Nat) : Int.fmod (m : Int) (n : Int) = ((m % n : Nat) : Int) := by
  cases m with
  | zero => simp [Int.fmod]
  | succ k => rfl

theorem fdiv_nonpos_of_neg (N : Nat) {d : Int} (hd : d < 0) : Int.fdiv (N : Int) d ≤ 0 := by
  cases d with
  | ofNat k => exact absurd hd (by rw [show Int.ofNat k = (k : Int) from rfl]; omega)
  | negSucc k =>
    cases N with
    | zero => simp [Int.fdiv]
    | succ m =>
      have h1 : Int.fdiv (Int.ofNat (m + 1)) (Int.negSucc k) = Int.negSucc (m / (k + 1)) := rfl
      rw [show ((m + 1 : Nat) : Int) = Int.ofNat (m + 1) from rfl, h1]
      exact (Int.negSucc_lt_zero _).le

theorem fdiv_neg_of_pos_of_neg {N : Nat} {d : Int} (hN : 0 < N) (hd : d < 0) :
    Int.fdiv (N : Int) d < 0 := by
  cases d with
  | ofNat k => exact absurd hd (by rw [show Int.ofNat k = (k : Int) from rfl]; omega)
  | negSucc k =>
    cases N with
    | zero => omega
    | succ m =>
      have h1 : Int.fdiv (Int.ofNat (m + 1)) (Int.negSucc k) = Int.negSucc (m / (k + 1)) := rfl
      rw [show ((m + 1 : Nat) : Int) = Int.ofNat (m + 1) from rfl, h1]
      exact Int.negSucc_lt_zero _

theorem fmod_nonpos_of_neg (N : Nat) {d : Int} (hd : d < 0) : Int.fmod (N : Int) d ≤ 0 := by
  cases d with
  | ofNat k => exact absurd hd (by rw [show Int.ofNat k = (k : Int) from rfl]; omega)
  | negSucc k =>
    cases N with
    | zero => simp [Int.fmod]
    | succ m =>
      have h1 : Int.fmod (Int.ofNat (m + 1)) (Int.negSucc k) = Int.subNatNat (m % (k + 1)) k := rfl
      rw [show ((m + 1 : Nat) : Int) = Int.ofNat (m + 1) from rfl, h1, Int.subNatNat_eq_coe]
      have h2 : m % (k + 1) < k + 1 := Nat.mod_lt m (Nat.succ_pos k)
      omega

/-! ### Evaluation theorems for the code-bug claims -/

/-- Model validation against the spec example for mode `"back"`: splitting a
10-page document into 3 parts gives lengths `[4, 3, 3]`. -/
theorem back_mode_lengths_check :
    (pdf_split_by_part (List.range 10) 3 "back").map (List.map List.length)
      = some [4, 3, 3] := by
  decide

/-- Claim C1 (code-bug evaluation): splitting a 10-page document into 3 parts
in mode `"front"` yields parts of lengths `[3, 3, 3]`, not the claimed
`[3, 3, 4]`.  The extra-page condition of pdf_process.py line 137 compares
`idx` against `pdf_page_len - remaining_page_num = avg * parts ≥ parts`, which
no index `idx < parts` ever reaches, so no part receives an extra page and the
final `remaining` pages are silently dropped. -/
theorem C1_front_mode_lengths :
    (pdf_split_by_part (List.range 10) 3 "front").map (List.map List.length)
      = some [3, 3, 3] := by
  decide

/-- Claim C2 (code-bug evaluation): for split-by-part in mode `"front"` the
union of the outputs is not the full page set — on a 10-page document split
into 3 parts the outputs cover exactly pages 0..8 and page 9 appears in no
output, violating the partition invariant. -/
theorem C2_front_mode_union :
    (pdf_split_by_part (List.range 10) 3 "front").map List.flatten
      = some [0, 1, 2, 3, 4, 5, 6, 7, 8]
    ∧ (9 : Nat) ∉ [0, 1, 2, 3, 4, 5, 6, 7, 8] := by
  decide

/-- Claim C4 (counterexample): a negative part count is not rejected —
`pdf_split_by_part` on a 10-page document with `parts = -3` returns normally
with an empty output list instead of failing with an InvalidArgument error. -/
theorem C4_negative_divisor_counterexample :
    pdf_split_by_part (List.range 10) (-3) "back" ≠ none
    ∧ pdf_split_by_part (List.range 10) (-3) "back" = some [] := by
  decide

/-- Claim C9 (code-bug evaluation): any individual path failure in `rm_files`
— a blocked protected path or a `PermissionError` during deletion — raises an
uncaught `NameError` (`file_operate.py` never imports `sys`, yet every failure
branch calls `print(..., file=sys.stderr)`), so the exception escapes the call
and the remaining paths are never processed; only an all-success batch returns
a boolean at all. -/
theorem C9_rm_files_failure_raises :
    rm_files [⟨false, true, .ok⟩, ⟨true, true, .ok⟩] = .error .nameError
    ∧ rm_files [⟨true, true, .permissionError⟩, ⟨true, true, .ok⟩] = .error .nameError
    ∧ rm_files [⟨true, true, .ok⟩, ⟨true, false, .ok⟩] = .ok true := ⟨rfl, rfl, rfl⟩

/-- Claim C10 (code-bug evaluation): for a `.pdf` input both conversion
functions create the temporary directory `out_dir/uuid1().hex` and then return
from inside the `try` block without removing it (pdf_process.py lines 217-222
and 282-287 bypass the `shutil.rmtree` of lines 251 / 320), leaking the
directory on this success path. -/
theorem C10_pdf_branch_leaks_temp_dir :
    convert_to_pdf ".pdf" true true
      = { raised := false, tempDirCreated := true, tempDirRemoved := false }
    ∧ convert_to_pdf_async ".pdf" true false true
      = { raised := false, tempDirCreated := true, tempDirRemoved := false } := ⟨rfl, rfl⟩

/-! ### List helper lemmas -/

theorem range_filterMap_getElem (l : List α) (m : Nat) :
    ∀ n : Nat, (List.range n).filterMap (fun k => l[m + k]?) = (l.drop m).take n := by
  intro n
  induction n with
  | zero => simp
  | succ k ih =>
    rw [List.range_succ, List.filterMap_append, ih, List.take_succ, List.getElem?_drop]
    cases h : l[m + k]? <;> simp [h]

theorem pagesAt_natCast (doc : List α) (a b : Nat) :
    pagesAt doc ((a : Int), (b : Int)) = natSlice doc (a, b) := by
  show ((List.range ((b : Int) - (a : Int)).toNat).map
      (fun k : Nat => (a : Int) + (k : Int))).filterMap
      (fun i => if 0 ≤ i then doc[i.toNat]? else none) = (doc.drop a).take (b - a)
  rw [List.filterMap_map]
  have hn : ((b : Int) - (a : Int)).toNat = b - a := by omega
  rw [hn]
  have hfun : ((fun i : Int => if 0 ≤ i then doc[i.toNat]? else none) ∘
      (fun k : Nat => (a : Int) + (k : Int))) = fun k : Nat => doc[a + k]? := by
    funext k
    simp only [Function.comp_apply]
    rw [if_pos (by omega : (0 : Int) ≤ (a : Int) + (k : Int))]
    have ht : ((a : Int) + (k : Int)).toNat = a + k := by omega
    rw [ht]
  rw [hfun]
  exact range_filterMap_getElem doc a (b - a)

theorem pagesAt_of_le (doc : List α) {a b : Int} (h : b ≤ a) : pagesAt doc (a, b) = [] := by
  show ((List.range (b - a).toNat).map (fun k : Nat => a + (k : Int))).filterMap
      (fun i => if 0 ≤ i then doc[i.toNat]? else none) = []
  have hz : (b - a).toNat = 0 := by omega
  rw [hz]
  rfl

theorem pdf_merge_eq_flatten (l : List (List α)) : pdf_merge l = l.flatten := by
  have aux : ∀ (l : List (List α)) (acc : List α),
      l.foldl (fun result one_pdf => result ++ one_pdf) acc = acc ++ l.flatten := by
    intro l
    induction l with
    | nil => intro acc; simp
    | cons x xs ih => intro acc; simp [ih]
  simpa using aux l []

/-! ### Chain lemmas: the range lists of a split tile the page indices -/

theorem ChainedN.le {s e : Nat} {rl : List (Nat × Nat)} (h : ChainedN s e rl) : s ≤ e := by
  induction h with
  | nil _ => exact Nat.le_refl _
  | cons hst _ ih => exact Nat.le_trans hst ih

theorem ChainedN.congr_ends {s e s' e' : Nat} {l : List (Nat × Nat)}
    (h : ChainedN s e l) (hs : s = s') (he : e = e') : ChainedN s' e' l := by
  subst hs; subst he; exact h

theorem ChainedN.append {s t e : Nat} {rl1 rl2 : List (Nat × Nat)}
    (h1 : ChainedN s t rl1) : ChainedN t e rl2 → ChainedN s e (rl1 ++ rl2) := by
  induction h1 with
  | nil _ => intro h2; simpa using h2
  | cons hst _ ih => intro h2; exact ChainedN.cons hst (ih h2)

theorem chainedN_range' (g : Nat → Nat) (hg : ∀ i, g i ≤ g (i + 1)) :
    ∀ (c j : Nat),
      ChainedN (g j) (g (j + c)) ((List.range' j c).map (fun i => (g i, g (i + 1)))) := by
  intro c
  induction c with
  | zero => intro j; exact ChainedN.nil (g j)
  | succ k ih =>
    intro j
    have hr : List.range' j (k + 1) = j :: List.range' (j + 1) k := rfl
    rw [hr, List.map_cons]
    have h2 := ih (j + 1)
    rw [show j + 1 + k = j + (k + 1) from by omega] at h2
    exact ChainedN.cons (hg j) h2

theorem chainedN_flatten (doc : List α) {s e : Nat} {rl : List (Nat × Nat)}
    (h : ChainedN s e rl) :
    (rl.map (natSlice doc)).flatten = (doc.drop s).take (e - s) := by
  induction h with
  | nil _ => simp
  | cons hst hrest ih =>
    rename_i s' t' e' rest
    rw [List.map_cons, List.flatten_cons, ih]
    have h2 : e' - s' = (t' - s') + (e' - t') := by
      have := hrest.le
      omega
    rw [h2, List.take_add]
    have h1 : (doc.drop s').drop (t' - s') = doc.drop t' := by
      rw [List.drop_drop]
      congr 1
      omega
    rw [h1]
    rfl

theorem chainedN_bounds {s e : Nat} {rl : List (Nat × Nat)} (h : ChainedN s e rl) :
    ∀ q ∈ rl, q.1 ≤ q.2 ∧ q.2 ≤ e := by
  induction h with
  | nil _ => intro q hq; cases hq
  | cons hst hrest ih =>
    intro q hq
    rcases List.mem_cons.mp hq with rfl | hq'
    · exact ⟨hst, hrest.le⟩
    · exact ih q hq'

theorem natPageRanges_chained (N p : Nat) :
    ∀ mode, mode = "begin" ∨ mode = "end" → ChainedN 0 N (natPageRanges N p mode) := by
  have hdm : p * (N / p) + N % p = N := Nat.div_add_mod N p
  have hmono : ∀ r i : Nat, r + p * i ≤ r + p * (i + 1) := fun r i =>
    Nat.add_le_add_left (Nat.mul_le_mul (Nat.le_refl p) (Nat.le_succ i)) r
  rintro mode (rfl | rfl)
  · unfold natPageRanges
    rw [if_pos rfl, List.range_eq_range']
    have hchain := chainedN_range' (fun i => N % p + p * i) (hmono (N % p)) (N / p) 0
    simp only [Nat.zero_add] at hchain
    by_cases hr : N % p = 0
    · rw [if_neg (by simp [hr]), List.nil_append]
      exact hchain.congr_ends (by simp [hr]) (by rw [Nat.add_comm]; exact hdm)
    · rw [if_pos hr, List.singleton_append]
      exact ChainedN.cons (Nat.zero_le _)
        (hchain.congr_ends (by simp) (by rw [Nat.add_comm]; exact hdm))
  · unfold natPageRanges
    rw [if_neg (by decide), if_pos rfl, List.range_eq_range']
    have hchain := chainedN_range' (fun i => p * i)
      (fun i => Nat.mul_le_mul (Nat.le_refl p) (Nat.le_succ i)) (N / p) 0
    simp only [Nat.zero_add] at hchain
    by_cases hr : N % p = 0
    · rw [if_neg (by simp [hr]), List.append_nil]
      refine hchain.congr_ends (by simp) ?_
      rw [hr, Nat.add_zero] at hdm
      exact hdm
    · rw [if_pos hr]
      have hsingle : ChainedN (p * (N / p)) (p * (N / p) + N % p)
          [(p * (N / p), p * (N / p) + N % p)] :=
        ChainedN.cons (Nat.le_add_right _ _) (ChainedN.nil _)
      exact (hchain.append hsingle).congr_ends (by simp) hdm

/-! ### Bridging: `pdf_split_by_page` with a positive divisor, in `Nat` form -/

theorem pageRangeList_natCast (N p : Nat) (mode : String) :
    pageRangeList N (p : Int) mode
      = (natPageRanges N p mode).map (fun q => ((q.1 : Int), (q.2 : Int))) := by
  unfold pageRangeList natPageRanges
  rw [fdiv_natCast, fmod_natCast]
  by_cases hb : mode = "begin"
  · rw [if_pos hb, if_pos hb, List.map_append, List.map_map, Int.toNat_natCast]
    congr 1
    by_cases hr : N % p = 0
    · rw [if_neg (by simp [hr]), if_neg (by simp [hr])]
      rfl
    · rw [if_pos (by exact_mod_cast hr), if_pos hr]
      rfl
  · by_cases he : mode = "end"
    · rw [if_neg hb, if_neg hb, if_pos he, if_pos he, List.map_append, List.map_map,
        Int.toNat_natCast]
      congr 1
      by_cases hr : N % p = 0
      · rw [if_neg (by simp [hr]), if_neg (by simp [hr])]
        rfl
      · rw [if_pos (by exact_mod_cast hr), if_pos hr]
        rfl
    · rw [if_neg hb, if_neg hb, if_neg he, if_neg he]
      rfl

theorem split_by_page_eq_nat (doc : List α) (p : Nat) (hp : 1 ≤ p) (mode : String) :
    pdf_split_by_page doc (p : Int) mode
      = some ((natPageRanges doc.length p mode).map (natSlice doc)) := by
  unfold pdf_split_by_page
  rw [if_neg (by omega : ¬((p : Int) = 0))]
  rw [pageRangeList_natCast doc.length p mode, List.map_map]
  congr 2
  funext q
  simp only [Function.comp_apply]
  exact pagesAt_natCast doc q.1 q.2

theorem natSlice_length (doc : List α) (q : Nat × Nat) (h1 : q.1 ≤ q.2)
    (h2 : q.2 ≤ doc.length) : (natSlice doc q).length = q.2 - q.1 := by
  unfold natSlice
  rw [List.length_take, List.length_drop]
  omega

/-! ### Claims about `pdf_split_by_page` and `pdf_merge` -/

/-- Claim C6: for every document, every `pages_per_part ≥ 1` and either mode,
merging the complete ordered list of outputs of split-by-page reconstructs
the original document (same page count, same page order). -/
theorem C6_merge_split_round_trip {α : Type} (doc : List α) (p : Nat) (hp : 1 ≤ p)
    (mode : String) (hmode : mode = "begin" ∨ mode = "end")
    (parts : List (List α)) (hsplit : pdf_split_by_page doc (p : Int) mode = some parts) :
    pdf_merge parts = doc := by
  rw [split_by_page_eq_nat doc p hp mode] at hsplit
  have h := Option.some.inj hsplit
  rw [← h, pdf_merge_eq_flatten]
  rw [chainedN_flatten doc (natPageRanges_chained doc.length p mode hmode)]
  simp

/-- Witness for C6 at a concrete input: a 4-page document split by 3 in mode
`"end"` gives parts `[[0,1,2],[3]]`, whose merge is the original document. -/
theorem C6_witness :
    (1 ≤ 3 ∧ (("end" : String) = "begin" ∨ ("end" : String) = "end")
      ∧ pdf_split_by_page [0, 1, 2, 3] ((3 : Nat) : Int) "end" = some [[0, 1, 2], [3]])
    ∧ pdf_merge [[0, 1, 2], [3]] = [0, 1, 2, 3] :=
  ⟨⟨by omega, Or.inr rfl, by decide⟩,
    C6_merge_split_round_trip [0, 1, 2, 3] 3 (by omega) "end" (Or.inr rfl)
      [[0, 1, 2], [3]] (by decide)⟩

/-- Claim C3: for split-by-page with divisor `p ≥ 1`, mode `"begin"` puts the
single short range (of length `N mod p`, when non-zero) first, followed by
`N div p` ranges of length `p`; mode `"end"` puts the `N div p` full ranges
first, followed by the short range; with zero remainder all ranges have
length exactly `p`. -/
theorem C3_split_by_page_lengths {α : Type} (doc : List α) (p : Nat) (hp : 1 ≤ p) :
    (pdf_split_by_page doc (p : Int) "begin").map (List.map List.length)
      = some ((if doc.length % p = 0 then [] else [doc.length % p])
          ++ List.replicate (doc.length / p) p)
    ∧ (pdf_split_by_page doc (p : Int) "end").map (List.map List.length)
      = some (List.replicate (doc.length / p) p
          ++ if doc.length % p = 0 then [] else [doc.length % p]) := by
  have key : ∀ mode, mode = "begin" ∨ mode = "end" →
      (pdf_split_by_page doc (p : Int) mode).map (List.map List.length)
        = some ((natPageRanges doc.length p mode).map (fun q => q.2 - q.1)) := by
    intro mode hmode
    rw [split_by_page_eq_nat doc p hp mode, Option.map_some']
    congr 1
    rw [List.map_map]
    apply List.map_congr_left
    intro q hq
    have hb := chainedN_bounds (natPageRanges_chained doc.length p mode hmode) q hq
    simp only [Function.comp_apply]
    exact natSlice_length doc q hb.1 hb.2
  have harith : ∀ (r c i : Nat), (r + p * (i + 1)) - (r + p * i) = p := by
    intro r c i
    have hmul : p * (i + 1) = p * i + p := by ring
    omega
  constructor
  · rw [key "begin" (Or.inl rfl)]
    congr 1
    unfold natPageRanges
    rw [if_pos rfl, List.map_append, List.map_map]
    congr 1
    · by_cases hr : doc.length % p = 0
      · rw [if_neg (by simp [hr]), if_pos hr]
        rfl
      · rw [if_pos hr, if_neg hr]
        simp
    · have hfun : ((fun q : Nat × Nat => q.2 - q.1) ∘
          (fun i => (doc.length % p + p * i, doc.length % p + p * (i + 1))))
            = fun _ : Nat => p := by
        funext i
        simp only [Function.comp_apply]
        exact harith (doc.length % p) 0 i
      rw [hfun]
      simp
  · rw [key "end" (Or.inr rfl)]
    congr 1
    unfold natPageRanges
    rw [if_neg (by decide), if_pos rfl, List.map_append, List.map_map]
    congr 1
    · have hfun : ((fun q : Nat × Nat => q.2 - q.1) ∘
          (fun i => (p * i, p * (i + 1)))) = fun _ : Nat => p := by
        funext i
        simp only [Function.comp_apply]
        have := harith 0 0 i
        simpa using this
      rw [hfun]
      simp
    · by_cases hr : doc.length % p = 0
      · rw [if_neg (by simp [hr]), if_pos hr]
        rfl
      · rw [if_pos hr, if_neg hr]
        simp

/-- Witness for C3 at the spec example: a 10-page document split by 3 has part
lengths `[1,3,3,3]` in mode `"begin"` and `[3,3,3,1]` in mode `"end"`. -/
theorem C3_witness :
    1 ≤ 3
    ∧ (pdf_split_by_page (List.range 10) ((3 : Nat) : Int) "begin").map (List.map List.length)
        = some [1, 3, 3, 3]
    ∧ (pdf_split_by_page (List.range 10) ((3 : Nat) : Int) "end").map (List.map List.length)
        = some [3, 3, 3, 1] := by
  refine ⟨by omega, ?_, ?_⟩
  · have h := (C3_split_by_page_lengths (List.range 10) 3 (by omega)).1
    simpa using h
  · have h := (C3_split_by_page_lengths (List.range 10) 3 (by omega)).2
    simpa using h

/-! ### Claim about the degenerate case of `pdf_split_by_part` -/

/-- Claim C7: for `parts ≥ 1` and `N < parts` (so `N div parts = 0`),
split-by-part ignores the requested part count and emits exactly `N`
single-page documents, one per page in original order, without error, in
every mode. -/
theorem C7_degenerate_single_pages {α : Type} (doc : List α) (parts : Nat)
    (h1 : 1 ≤ parts) (hN : doc.length < parts) (mode : String) :
    pdf_split_by_part doc (parts : Int) mode = some (doc.map (fun page => [page])) := by
  unfold pdf_split_by_part
  rw [if_neg (by omega : ¬((parts : Int) = 0))]
  have hz : Int.fdiv (doc.length : Int) (parts : Int) = 0 := by
    rw [fdiv_natCast, Nat.div_eq_of_lt hN]
    rfl
  rw [if_pos hz]

/-- Witness for C7 at the spec example: a 2-page document split into 5 parts
yields 2 single-page outputs. -/
theorem C7_witness :
    (1 ≤ 5 ∧ 2 < 5)
    ∧ pdf_split_by_part [10, 20] ((5 : Nat) : Int) "front" = some [[10], [20]] := by
  refine ⟨⟨by omega, by omega⟩, ?_⟩
  have h := C7_degenerate_single_pages [10, 20] 5 (by omega) (by decide) "front"
  simpa using h

/-! ### Claim C4: divisor validation -/

/-- Claim C4 (amended): neither split operation validates its divisor.  A zero
divisor fails with an uncaught `ZeroDivisionError` (not an InvalidArgument
error); a negative divisor is not rejected at all: both operations return
normally — `pdf_split_by_part` with an empty output list, `pdf_split_by_page`
with an output list containing no pages. -/
theorem C4_no_divisor_validation {α : Type} (doc : List α) (mode : String)
    (d : Int) (hd : d < 0) :
    pdf_split_by_page doc 0 mode = none
    ∧ pdf_split_by_part doc 0 mode = none
    ∧ pdf_split_by_part doc d mode = some []
    ∧ ∃ outs, pdf_split_by_page doc d mode = some outs ∧ outs.flatten = ([] : List α) := by
  refine ⟨by simp [pdf_split_by_page], by simp [pdf_split_by_part], ?_, ?_⟩
  · unfold pdf_split_by_part
    rw [if_neg (by omega : ¬(d = 0))]
    by_cases hz : Int.fdiv (doc.length : Int) d = 0
    · rw [if_pos hz]
      have hlen : doc.length = 0 := by
        by_contra hne
        have hpos : 0 < doc.length := Nat.pos_of_ne_zero hne
        have hlt := fdiv_neg_of_pos_of_neg hpos hd
        omega
      have hdoc : doc = [] := List.length_eq_zero.mp hlen
      rw [hdoc]
      rfl
    · rw [if_neg hz]
      have htz : d.toNat = 0 := by omega
      unfold partPageNums
      rw [htz]
      simp [walkSlices]
  · unfold pdf_split_by_page
    rw [if_neg (by omega : ¬(d = 0))]
    refine ⟨_, rfl, ?_⟩
    have hc : (Int.fdiv (doc.length : Int) d).toNat = 0 := by
      have := fdiv_nonpos_of_neg doc.length hd
      omega
    have hm : Int.fmod (doc.length : Int) d ≤ 0 := fmod_nonpos_of_neg doc.length hd
    unfold pageRangeList
    rw [hc]
    by_cases hbg : mode = "begin"
    · rw [if_pos hbg]
      simp only [List.range_zero, List.map_nil, List.append_nil]
      by_cases hr : Int.fmod (doc.length : Int) d = 0
      · rw [if_neg (by simp [hr])]
        rfl
      · rw [if_pos hr]
        simp [pagesAt_of_le doc hm]
    · rw [if_neg hbg]
      by_cases hed : mode = "end"
      · rw [if_pos hed]
        simp only [List.range_zero, List.map_nil, List.nil_append]
        by_cases hr : Int.fmod (doc.length : Int) d = 0
        · rw [if_neg (by simp [hr])]
          rfl
        · rw [if_pos hr]
          have hle : d * Int.fdiv (doc.length : Int) d + Int.fmod (doc.length : Int) d
              ≤ d * Int.fdiv (doc.length : Int) d := (add_le_iff_nonpos_right _).mpr hm
          simp [pagesAt_of_le doc hle]
      · rw [if_neg hed]
        rfl

/-- Witness for C4 at a concrete input: a 5-page document with divisor 0
(`ZeroDivisionError`, modelled as `none`) and with divisor `-3` (returns
normally, producing no pages). -/
theorem C4_witness :
    ((-3 : Int) < 0)
    ∧ (pdf_split_by_page ([0, 1, 2, 3, 4] : List Nat) 0 "end" = none
      ∧ pdf_split_by_part ([0, 1, 2, 3, 4] : List Nat) 0 "end" = none
      ∧ pdf_split_by_part ([0, 1, 2, 3, 4] : List Nat) (-3) "end" = some []
      ∧ ∃ outs, pdf_split_by_page ([0, 1, 2, 3, 4] : List Nat) (-3) "end" = some outs
          ∧ outs.flatten = ([] : List Nat)) :=
  ⟨by decide, C4_no_divisor_validation [0, 1, 2, 3, 4] "end" (-3) (by decide)⟩

/-! ### Claims about `pdf_drop_pages` -/

theorem mem_dropPagesSet (dps : List (Int × Int)) (i : Int) :
    i ∈ dropPagesSet dps ↔ ∃ r ∈ dps, r.1 ≤ i ∧ i ≤ r.2 := by
  unfold dropPagesSet
  simp only [List.mem_flatten, List.mem_map]
  constructor
  · rintro ⟨s, ⟨r, hr, rfl⟩, hi⟩
    refine ⟨r, hr, ?_⟩
    unfold pyRange at hi
    simp only [List.mem_map, List.mem_range] at hi
    obtain ⟨k, hk, hik⟩ := hi
    omega
  · rintro ⟨r, hr, h1, h2⟩
    refine ⟨pyRange r.1 (r.2 + 1), ⟨r, hr, rfl⟩, ?_⟩
    unfold pyRange
    simp only [List.mem_map, List.mem_range]
    exact ⟨(i - r.1).toNat, by omega, by omega⟩

/-- Claim C5: for valid 1-based inclusive ranges, drop-pages returns exactly
the pages whose 1-based position lies in no requested range, in original
relative order, a position covered by several overlapping ranges being
removed only once — i.e. the code agrees with the specification-level filter
`dropPagesSpec`. -/
theorem C5_drop_pages_correct {α : Type} (doc : List α) (dps : List (Int × Int))
    (hvalid : ∀ r ∈ dps, 1 ≤ r.1 ∧ r.1 ≤ r.2 ∧ r.2 ≤ (doc.length : Int)) :
    pdf_drop_pages doc dps = dropPagesSpec doc dps := by
  unfold pdf_drop_pages dropPagesSpec
  congr 1
  apply List.filter_congr
  intro p _
  congr 1
  exact decide_eq_decide.mpr (mem_dropPagesSet dps (p.1 : Int))

/-- Witness for C5 at the spec example: a 10-page document (pages named by
their positions `1..10`) with ranges `[(2,4),(4,6)]` keeps exactly the pages
at positions `{1,7,8,9,10}`. -/
theorem C5_witness :
    (∀ r ∈ ([(2, 4), (4, 6)] : List (Int × Int)),
        1 ≤ r.1 ∧ r.1 ≤ r.2 ∧ r.2 ≤ ((List.range' 1 10).length : Int))
    ∧ pdf_drop_pages (List.range' 1 10) [(2, 4), (4, 6)]
        = dropPagesSpec (List.range' 1 10) [(2, 4), (4, 6)]
    ∧ pdf_drop_pages (List.range' 1 10) [(2, 4), (4, 6)] = [1, 7, 8, 9, 10] :=
  ⟨by decide, C5_drop_pages_correct (List.range' 1 10) [(2, 4), (4, 6)] (by decide),
    by decide⟩

/-- Claim C8: drop-pages does not fail on malformed ranges — it is a total
function of the document and the range list — and behaves exactly as if the
requested removal set were intersected with `[1, N]`: out-of-range positions
are silently ignored and an inverted range (`begin > end`) removes nothing. -/
theorem C8_drop_pages_tolerates_invalid {α : Type} (doc : List α)
    (dps : List (Int × Int)) :
    pdf_drop_pages doc dps
      = pdf_drop_pages doc (dps.filterMap (clampRange doc.length)) := by
  unfold pdf_drop_pages
  congr 1
  apply List.filter_congr
  intro p hp
  obtain ⟨hm1, hm2, -⟩ := List.mem_enumFrom hp
  congr 1
  apply decide_eq_decide.mpr
  rw [mem_dropPagesSet, mem_dropPagesSet]
  constructor
  · rintro ⟨r, hr, h1, h2⟩
    refine ⟨(max r.1 1, min r.2 (doc.length : Int)), ?_, ?_, ?_⟩
    · rw [List.mem_filterMap]
      refine ⟨r, hr, ?_⟩
      unfold clampRange
      rw [if_pos (by omega)]
    · show max r.1 1 ≤ (p.1 : Int)
      omega
    · show (p.1 : Int) ≤ min r.2 (doc.length : Int)
      omega
  · rintro ⟨r', hr', h1, h2⟩
    rw [List.mem_filterMap] at hr'
    obtain ⟨r, hr, hc⟩ := hr'
    unfold clampRange at hc
    by_cases hcond : max r.1 1 ≤ min r.2 (doc.length : Int)
    · rw [if_pos hcond] at hc
      obtain rfl := Option.some.inj hc
      have h1' : max r.1 1 ≤ (p.1 : Int) := h1
      have h2' : (p.1 : Int) ≤ min r.2 (doc.length : Int) := h2
      exact ⟨r, hr, by omega, by omega⟩
    · rw [if_neg hcond] at hc
      exact absurd hc (by simp)
